import Mathlib

/-!
Shallow embedding of `src/Hashing_Algorithms.py`: two SHA-2 engines
(SHA224 with 32-bit words, SHA512 with 64-bit words), their shared
bitwise primitives, padding, message-schedule expansion, compression
rounds, digest extraction and hexadecimal rendering.

Machine words are modelled as `Nat` with explicit reduction `% 2 ^ 32`
(resp. `% 2 ^ 64`) wherever the Python source applies the masks
`& 0xFFFFFFFF` / `& 0xFFFFFFFFFFFFFFFF` (for those masks, bitwise AND
and remainder coincide).  Byte strings are `List Nat` (each entry a
byte value).
-/

/-- Source `rightrotate(x, c)`: mask `x` to 32 bits, then
`((x >> c) | (x << (32 - c))) & 0xFFFFFFFF`. -/
def rightrotate (x c : Nat) : Nat :=
  (((x % 2 ^ 32) >>> c) ||| ((x % 2 ^ 32) <<< (32 - c))) % 2 ^ 32

/-- Source `leftrotate(x, c)`. -/
def leftrotate (x c : Nat) : Nat :=
  (((x % 2 ^ 32) <<< c) ||| ((x % 2 ^ 32) >>> (32 - c))) % 2 ^ 32

/-- Source `rightrotate_64(x, c)`: 64-bit right rotation. -/
def rightrotate_64 (x c : Nat) : Nat :=
  (((x % 2 ^ 64) >>> c) ||| ((x % 2 ^ 64) <<< (64 - c))) % 2 ^ 64

/-- Source `leftrotate_64(x, c)`. -/
def leftrotate_64 (x c : Nat) : Nat :=
  (((x % 2 ^ 64) <<< c) ||| ((x % 2 ^ 64) >>> (64 - c))) % 2 ^ 64

/-- Source `rightshift(x, c)`: plain logical shift right. -/
def rightshift (x c : Nat) : Nat := x >>> c

/-- Source `leftshift(x, c)`: plain shift left (no mask). -/
def leftshift (x c : Nat) : Nat := x <<< c

/-- Low 32 bits of Python's infinite-precision two's-complement `~x`:
bit `i < 32` of the result is the complement of bit `i` of `x`.  The
source always masks the surrounding expression with `& 0xFFFFFFFF`,
which discards exactly the bits this model drops. -/
def pyNot32 (x : Nat) : Nat := (2 ^ 32 - 1) - x % 2 ^ 32

/-- Low 64 bits of Python's `~x`, used by the SHA512 round. -/
def pyNot64 (x : Nat) : Nat := (2 ^ 64 - 1) - x % 2 ^ 64

/-- Source `int.from_bytes(bs, byteorder='big')`. -/
def fromBytesBE (bs : List Nat) : Nat := bs.foldl (fun a b => 256 * a + b) 0

/-- Source `x.to_bytes(n, byteorder='big')`: exactly `n` bytes, big-endian.
(The Python call raises `OverflowError` when `2 ^ (8 * n) ≤ x`; in the
source every use site satisfies `x < 2 ^ (8 * n)`, proved below, and on
that range this model is exact.) -/
def toBytesBE : Nat → Nat → List Nat
  | 0, _ => []
  | n + 1, x => toBytesBE n (x / 256) ++ [x % 256]

/-- Source `data[offset : offset + size]` for `offset in range(0, len(data), size)`:
the list of consecutive `size`-byte chunks. -/
def chunkList (size : Nat) (data : List Nat) : List (List Nat) :=
  (List.range ((data.length + (size - 1)) / size)).map
    (fun j => (data.drop (size * j)).take size)

/-- The eight-word running state `hash_pieces` shared by both engines. -/
structure Pieces where
  h0 : Nat
  h1 : Nat
  h2 : Nat
  h3 : Nat
  h4 : Nat
  h5 : Nat
  h6 : Nat
  h7 : Nat
deriving DecidableEq, Repr

/-- The eight working registers `a..h` of the compression loop. -/
structure Regs where
  a : Nat
  b : Nat
  c : Nat
  d : Nat
  e : Nat
  f : Nat
  g : Nat
  h : Nat
deriving DecidableEq, Repr

/-- SHA224 initial hash values `h0..h7` from `SHA224.__init__`. -/
def init224 : Pieces :=
  ⟨0xC1059ED8, 0x367CD507, 0x3070DD17, 0xF70E5939,
   0xFFC00B31, 0x68581511, 0x64F98FA7, 0xBEFA4FA4⟩

/-- SHA224 round constants `self.k` (64 entries) from `SHA224.__init__`. -/
def k224 : List Nat :=
  [0x428A2F98, 0x71374491, 0xB5C0FBCF, 0xE9B5DBA5, 0x3956C25B, 0x59F111F1, 0x923F82A4, 0xAB1C5ED5,
   0xD807AA98, 0x12835B01, 0x243185BE, 0x550C7DC3, 0x72BE5D74, 0x80DEB1FE, 0x9BDC06A7, 0xC19BF174,
   0xE49B69C1, 0xEFBE4786, 0x0FC19DC6, 0x240CA1CC, 0x2DE92C6F, 0x4A7484AA, 0x5CB0A9DC, 0x76F988DA,
   0x983E5152, 0xA831C66D, 0xB00327C8, 0xBF597FC7, 0xC6E00BF3, 0xD5A79147, 0x06CA6351, 0x14292967,
   0x27B70A85, 0x2E1B2138, 0x4D2C6DFC, 0x53380D13, 0x650A7354, 0x766A0ABB, 0x81C2C92E, 0x92722C85,
   0xA2BFE8A1, 0xA81A664B, 0xC24B8B70, 0xC76C51A3, 0xD192E819, 0xD6990624, 0xF40E3585, 0x106AA070,
   0x19A4C116, 0x1E376C08, 0x2748774C, 0x34B0BCB5, 0x391C0CB3, 0x4ED8AA4A, 0x5B9CCA4F, 0x682E6FF3,
   0x748F82EE, 0x78A5636F, 0x84C87814, 0x8CC70208, 0x90BEFFFA, 0xA4506CEB, 0xBEF9A3F7, 0xC67178F2]

/-- Source `orig_len_in_bits = (8 * len(data)) & 0xFFFFFFFFFFFFFFFF` in
`SHA224.update` (length field wraps modulo `2 ^ 64`). -/
def origLenBits224 (n : Nat) : Nat := (8 * n) % 2 ^ 64

/-- Closed form of the zero-padding loop
`while len(data) % 64 != 56: data.append(0)` in `SHA224.update`:
the number of zero bytes appended given the current length `l`
(proved below to be the unique count `< 64` reaching `≡ 56 (mod 64)`). -/
def padZeros224 (l : Nat) : Nat := (56 + 64 - l % 64) % 64

/-- Step 1 of `SHA224.update`: append `0x80`, zero-pad to
`≡ 56 (mod 64)`, append the wrapped bit length as 8 big-endian bytes. -/
def pad224 (m : List Nat) : List Nat :=
  m ++ [0x80] ++ List.replicate (padZeros224 (m.length + 1)) 0
    ++ toBytesBE 8 (origLenBits224 m.length)

/-- Step 2.b of `SHA224.update`: the 16 seed words
`w[i] = int.from_bytes(chunks[4*i : 4*i + 4], 'big')`. -/
def initW224 (chunk : List Nat) : List Nat :=
  (List.range 16).map (fun i => fromBytesBE ((chunk.drop (4 * i)).take 4))

/-- One iteration of step 2.c of `SHA224.update`, with `i` the current
length of `w`: `w[i] = (w[i-16] + s0 + w[i-7] + s1) & 0xFFFFFFFF`. -/
def schedStep224 (w : List Nat) : Nat :=
  let i := w.length
  let s0 := (rightrotate (w.getD (i - 15) 0) 7 ^^^ rightrotate (w.getD (i - 15) 0) 18
              ^^^ rightshift (w.getD (i - 15) 0) 3) % 2 ^ 32
  let s1 := (rightrotate (w.getD (i - 2) 0) 17 ^^^ rightrotate (w.getD (i - 2) 0) 19
              ^^^ rightshift (w.getD (i - 2) 0) 10) % 2 ^ 32
  (w.getD (i - 16) 0 + s0 + w.getD (i - 7) 0 + s1) % 2 ^ 32

/-- Step 2.c of `SHA224.update`: extend the 16 seed words to the full
64-entry message schedule (`for i in range(16, 64)`). -/
def sched224 (chunk : List Nat) : List Nat :=
  (List.range 48).foldl (fun w _ => w ++ [schedStep224 w]) (initW224 chunk)

/-- One iteration of the main loop (step 2.e) of `SHA224.update`. -/
def round224 (ki wi : Nat) (r : Regs) : Regs :=
  let S1 := (rightrotate r.e 6 ^^^ rightrotate r.e 11 ^^^ rightrotate r.e 25) % 2 ^ 32
  let ch := ((r.e &&& r.f) ^^^ (pyNot32 r.e &&& r.g)) % 2 ^ 32
  let temp1 := (r.h + S1 + ch + ki + wi) % 2 ^ 32
  let S0 := (rightrotate r.a 2 ^^^ rightrotate r.a 13 ^^^ rightrotate r.a 22) % 2 ^ 32
  let maj := ((r.a &&& r.b) ^^^ (r.a &&& r.c) ^^^ (r.b &&& r.c)) % 2 ^ 32
  let temp2 := (S0 + maj) % 2 ^ 32
  ⟨(temp1 + temp2) % 2 ^ 32, r.a, r.b, r.c, (r.d + temp1) % 2 ^ 32, r.e, r.f, r.g⟩

/-- Steps 2.d, 2.e and the final accumulation of one chunk in
`SHA224.update`: run 64 rounds from the current pieces, then add the
registers back into the pieces modulo `2 ^ 32`. -/
def compress224 (hp : Pieces) (chunk : List Nat) : Pieces :=
  let w := sched224 chunk
  let r := (List.range 64).foldl
    (fun r i => round224 (k224.getD i 0) (w.getD i 0) r)
    ⟨hp.h0, hp.h1, hp.h2, hp.h3, hp.h4, hp.h5, hp.h6, hp.h7⟩
  ⟨(hp.h0 + r.a) % 2 ^ 32, (hp.h1 + r.b) % 2 ^ 32, (hp.h2 + r.c) % 2 ^ 32,
   (hp.h3 + r.d) % 2 ^ 32, (hp.h4 + r.e) % 2 ^ 32, (hp.h5 + r.f) % 2 ^ 32,
   (hp.h6 + r.g) % 2 ^ 32, (hp.h7 + r.h) % 2 ^ 32⟩

/-- Source `SHA224.update(arg)`: pad, then fold the compression over the
64-byte chunks, starting from the object's current `hash_pieces`. -/
def update224 (hp : Pieces) (m : List Nat) : Pieces :=
  (chunkList 64 (pad224 m)).foldl compress224 hp

/-- Source `SHA224.digest()`: drop `h7`, then
`sum(leftshift(x, 32 * i) for i, x in enumerate(pieces_without_h7[::-1]))`. -/
def digest224 (hp : Pieces) : Nat :=
  (([hp.h0, hp.h1, hp.h2, hp.h3, hp.h4, hp.h5, hp.h6].reverse).enum.map
    (fun p => leftshift p.2 (32 * p.1))).sum

/-- The pieces of a fresh `SHA224()` object after one `update(m)`. -/
def sha224pieces (m : List Nat) : Pieces := update224 init224 m

/-- The integer digest of a fresh SHA224 engine applied to `m`. -/
def sha224int (m : List Nat) : Nat := digest224 (sha224pieces m)

/-- The digest as bytes: `digest.to_bytes(digest_size, 'big')` with
`digest_size = 28`, as built inside `Hash.hexdigest`. -/
def digestBytes224 (hp : Pieces) : List Nat := toBytesBE 28 (digest224 hp)

/-- SHA512 initial hash values `h0..h7` from `SHA512.__init__`. -/
def init512 : Pieces :=
  ⟨0x6A09E667F3BCC908, 0xBB67AE8584CAA73B, 0x3C6EF372FE94F82B, 0xA54FF53A5F1D36F1,
   0x510E527FADE682D1, 0x9B05688C2B3E6C1F, 0x1F83D9ABFB41BD6B, 0x5BE0CD19137E2179⟩

/-- SHA512 round constants `self.k` (80 entries) from `SHA512.__init__`. -/
def k512 : List Nat :=
  [0x428A2F98D728AE22, 0x7137449123EF65CD, 0xB5C0FBCFEC4D3B2F, 0xE9B5DBA58189DBBC, 0x3956C25BF348B538,
   0x59F111F1B605D019, 0x923F82A4AF194F9B, 0xAB1C5ED5DA6D8118, 0xD807AA98A3030242, 0x12835B0145706FBE,
   0x243185BE4EE4B28C, 0x550C7DC3D5FFB4E2, 0x72BE5D74F27B896F, 0x80DEB1FE3B1696B1, 0x9BDC06A725C71235,
   0xC19BF174CF692694, 0xE49B69C19EF14AD2, 0xEFBE4786384F25E3, 0x0FC19DC68B8CD5B5, 0x240CA1CC77AC9C65,
   0x2DE92C6F592B0275, 0x4A7484AA6EA6E483, 0x5CB0A9DCBD41FBD4, 0x76F988DA831153B5, 0x983E5152EE66DFAB,
   0xA831C66D2DB43210, 0xB00327C898FB213F, 0xBF597FC7BEEF0EE4, 0xC6E00BF33DA88FC2, 0xD5A79147930AA725,
   0x06CA6351E003826F, 0x142929670A0E6E70, 0x27B70A8546D22FFC, 0x2E1B21385C26C926, 0x4D2C6DFC5AC42AED,
   0x53380D139D95B3DF, 0x650A73548BAF63DE, 0x766A0ABB3C77B2A8, 0x81C2C92E47EDAEE6, 0x92722C851482353B,
   0xA2BFE8A14CF10364, 0xA81A664BBC423001, 0xC24B8B70D0F89791, 0xC76C51A30654BE30, 0xD192E819D6EF5218,
   0xD69906245565A910, 0xF40E35855771202A, 0x106AA07032BBD1B8, 0x19A4C116B8D2D0C8, 0x1E376C085141AB53,
   0x2748774CDF8EEB99, 0x34B0BCB5E19B48A8, 0x391C0CB3C5C95A63, 0x4ED8AA4AE3418ACB, 0x5B9CCA4F7763E373,
   0x682E6FF3D6B2B8A3, 0x748F82EE5DEFB2FC, 0x78A5636F43172F60, 0x84C87814A1F0AB72, 0x8CC702081A6439EC,
   0x90BEFFFA23631E28, 0xA4506CEBDE82BDE9, 0xBEF9A3F7B2C67915, 0xC67178F2E372532B, 0xCA273ECEEA26619C,
   0xD186B8C721C0C207, 0xEADA7DD6CDE0EB1E, 0xF57D4F7FEE6ED178, 0x06F067AA72176FBA, 0x0A637DC5A2C898A6,
   0x113F9804BEF90DAE, 0x1B710B35131C471B, 0x28DB77F523047D84, 0x32CAAB7B40C72493, 0x3C9EBE0A15C9BEBC,
   0x431D67C49C100D4C, 0x4CC5D4BECB3E42B6, 0x597F299CFC657E2A, 0x5FCB6FAB3AD6FAEC, 0x6C44198C4A475817]

/-- Source `orig_len_in_bits = (8 * len(data)) & (2 ** 128 - 1)` in
`SHA512.update` (length field wraps modulo `2 ^ 128`). -/
def origLenBits512 (n : Nat) : Nat := (8 * n) % 2 ^ 128

/-- Closed form of the zero-padding loop
`while len(data) % 128 != 112: data.append(0)` in `SHA512.update`. -/
def padZeros512 (l : Nat) : Nat := (112 + 128 - l % 128) % 128

/-- Step 1 of `SHA512.update`: append `0x80`, zero-pad to
`≡ 112 (mod 128)`, append the wrapped bit length as 16 big-endian bytes. -/
def pad512 (m : List Nat) : List Nat :=
  m ++ [0x80] ++ List.replicate (padZeros512 (m.length + 1)) 0
    ++ toBytesBE 16 (origLenBits512 m.length)

/-- Step 2.b of `SHA512.update`: the 16 seed words
`w[i] = int.from_bytes(chunks[8*i : 8*i + 8], 'big')`. -/
def initW512 (chunk : List Nat) : List Nat :=
  (List.range 16).map (fun i => fromBytesBE ((chunk.drop (8 * i)).take 8))

/-- One iteration of step 2.c of `SHA512.update`, with `i` the current
length of `w`. -/
def schedStep512 (w : List Nat) : Nat :=
  let i := w.length
  let s0 := (rightrotate_64 (w.getD (i - 15) 0) 1 ^^^ rightrotate_64 (w.getD (i - 15) 0) 8
              ^^^ rightshift (w.getD (i - 15) 0) 7) % 2 ^ 64
  let s1 := (rightrotate_64 (w.getD (i - 2) 0) 19 ^^^ rightrotate_64 (w.getD (i - 2) 0) 61
              ^^^ rightshift (w.getD (i - 2) 0) 6) % 2 ^ 64
  (w.getD (i - 16) 0 + s0 + w.getD (i - 7) 0 + s1) % 2 ^ 64

/-- Step 2.c of `SHA512.update`: extend the 16 seed words to the full
80-entry message schedule (`for i in range(16, 80)`). -/
def sched512 (chunk : List Nat) : List Nat :=
  (List.range 64).foldl (fun w _ => w ++ [schedStep512 w]) (initW512 chunk)

/-- One iteration of the main loop (step 2.e) of `SHA512.update`. -/
def round512 (ki wi : Nat) (r : Regs) : Regs :=
  let S1 := (rightrotate_64 r.e 14 ^^^ rightrotate_64 r.e 18 ^^^ rightrotate_64 r.e 41) % 2 ^ 64
  let ch := ((r.e &&& r.f) ^^^ (pyNot64 r.e &&& r.g)) % 2 ^ 64
  let temp1 := (r.h + S1 + ch + ki + wi) % 2 ^ 64
  let S0 := (rightrotate_64 r.a 28 ^^^ rightrotate_64 r.a 34 ^^^ rightrotate_64 r.a 39) % 2 ^ 64
  let maj := ((r.a &&& r.b) ^^^ (r.a &&& r.c) ^^^ (r.b &&& r.c)) % 2 ^ 64
  let temp2 := (S0 + maj) % 2 ^ 64
  ⟨(temp1 + temp2) % 2 ^ 64, r.a, r.b, r.c, (r.d + temp1) % 2 ^ 64, r.e, r.f, r.g⟩

/-- Steps 2.d, 2.e and the final accumulation of one chunk in
`SHA512.update`. -/
def compress512 (hp : Pieces) (chunk : List Nat) : Pieces :=
  let w := sched512 chunk
  let r := (List.range 80).foldl
    (fun r i => round512 (k512.getD i 0) (w.getD i 0) r)
    ⟨hp.h0, hp.h1, hp.h2, hp.h3, hp.h4, hp.h5, hp.h6, hp.h7⟩
  ⟨(hp.h0 + r.a) % 2 ^ 64, (hp.h1 + r.b) % 2 ^ 64, (hp.h2 + r.c) % 2 ^ 64,
   (hp.h3 + r.d) % 2 ^ 64, (hp.h4 + r.e) % 2 ^ 64, (hp.h5 + r.f) % 2 ^ 64,
   (hp.h6 + r.g) % 2 ^ 64, (hp.h7 + r.h) % 2 ^ 64⟩

/-- Source `SHA512.update(arg)`: pad, then fold the compression over the
128-byte chunks, starting from the object's current `hash_pieces`. -/
def update512 (hp : Pieces) (m : List Nat) : Pieces :=
  (chunkList 128 (pad512 m)).foldl compress512 hp

/-- Source `SHA512.digest()`: keep all eight pieces,
`sum(leftshift(x, 64 * i) for i, x in enumerate(self.hash_pieces[::-1]))`. -/
def digest512 (hp : Pieces) : Nat :=
  (([hp.h0, hp.h1, hp.h2, hp.h3, hp.h4, hp.h5, hp.h6, hp.h7].reverse).enum.map
    (fun p => leftshift p.2 (64 * p.1))).sum

/-- The pieces of a fresh `SHA512()` object after one `update(m)`. -/
def sha512pieces (m : List Nat) : Pieces := update512 init512 m

/-- The integer digest of a fresh SHA512 engine applied to `m`. -/
def sha512int (m : List Nat) : Nat := digest512 (sha512pieces m)

/-- The digest as bytes: `digest.to_bytes(digest_size, 'big')` with
`digest_size = 64`, as built inside `Hash.hexdigest`. -/
def digestBytes512 (hp : Pieces) : List Nat := toBytesBE 64 (digest512 hp)

/-- The character for one hex digit as produced by Python's `'{:x}'`
formatting: `'0'..'9'` then lowercase `'a'..'f'`. -/
def hexDigitChar (n : Nat) : Char :=
  if n < 10 then Char.ofNat (48 + n) else Char.ofNat (87 + n)

/-- Big-endian, fixed-width, zero-padded lowercase hexadecimal rendering:
`('{:0' + str(w) + 'x}').format(x)` in `Hash.hexdigest`.  (Python's
format never truncates; every use site satisfies `x < 16 ^ w`, proved
below, and on that range this fixed-width model is exact.  The
`to_bytes`/`from_bytes` round trip in `hexdigest` is the identity there
because both sides use big-endian order.) -/
def hexFixed : Nat → Nat → List Char
  | 0, _ => []
  | w + 1, x => hexFixed w (x / 16) ++ [hexDigitChar (x % 16)]

/-- Source `SHA224().hexdigest()` after `update(m)`: 2 × 28 hex characters. -/
def hexdigest224 (m : List Nat) : List Char := hexFixed 56 (sha224int m)

/-- Source `SHA512().hexdigest()` after `update(m)`: 2 × 64 hex characters. -/
def hexdigest512 (m : List Nat) : List Char := hexFixed 128 (sha512int m)

/-- Source `hash_SHA224(data)` for a byte input: fresh object, one update,
hex digest. -/
def hash_SHA224 (m : List Nat) : List Char := hexdigest224 m

/-- Source `hash_SHA512(data)` for a byte input: fresh object, one update,
hex digest. -/
def hash_SHA512 (m : List Nat) : List Char := hexdigest512 m

/-- The bytes of the ASCII string `"abc"`. -/
def abcBytes : List Nat := [97, 98, 99]

/-- The UTF-8 bytes of `"Hello World"` (all ASCII). -/
def helloWorldBytes : List Nat :=
  [72, 101, 108, 108, 111, 32, 87, 111, 114, 108, 100]

/-- The bytes of the NIST two-block SHA224 test vector
`"abcdbcdecdefdefgefghfghighijhijkijkljklmklmnlmnomnopnopq"`. -/
def nist224Bytes : List Nat :=
  [97, 98, 99, 100, 98, 99, 100, 101, 99, 100, 101, 102, 100, 101, 102, 103,
   101, 102, 103, 104, 102, 103, 104, 105, 103, 104, 105, 106, 104, 105, 106, 107,
   105, 106, 107, 108, 106, 107, 108, 109, 107, 108, 109, 110, 108, 109, 110, 111,
   109, 110, 111, 112, 110, 111, 112, 113]

/-- The bytes of the NIST two-block SHA512 test vector
`"abcdefghbcdefghicdefghijdefghijkefghijklfghijklmghijklmnhijklmnoijklmnopjklmnopqklmnopqrlmnopqrsmnopqrstnopqrstu"`. -/
def nist512Bytes : List Nat :=
  [97, 98, 99, 100, 101, 102, 103, 104, 98, 99, 100, 101, 102, 103, 104, 105,
   99, 100, 101, 102, 103, 104, 105, 106, 100, 101, 102, 103, 104, 105, 106, 107,
   101, 102, 103, 104, 105, 106, 107, 108, 102, 103, 104, 105, 106, 107, 108, 109,
   103, 104, 105, 106, 107, 108, 109, 110, 104, 105, 106, 107, 108, 109, 110, 111,
   105, 106, 107, 108, 109, 110, 111, 112, 106, 107, 108, 109, 110, 111, 112, 113,
   107, 108, 109, 110, 111, 112, 113, 114, 108, 109, 110, 111, 112, 113, 114, 115,
   109, 110, 111, 112, 113, 114, 115, 116, 110, 111, 112, 113, 114, 115, 116, 117]

/-!
Supporting lemmas about the embedded definitions.
-/

theorem toBytesBE_length (n x : Nat) : (toBytesBE n x).length = n := by
  induction n generalizing x with
  | zero => rfl
  | succ n ih => simp [toBytesBE, ih]

theorem toBytesBE_split (a b x y : Nat) (hy : y < 2 ^ (8 * b)) :
    toBytesBE (a + b) (x * 2 ^ (8 * b) + y) = toBytesBE a x ++ toBytesBE b y := by
  induction b generalizing y with
  | zero =>
      have hy0 : y = 0 := by simpa using hy
      subst hy0
      simp [toBytesBE]
  | succ b ih =>
      have hpow : (2 : Nat) ^ (8 * (b + 1)) = 2 ^ (8 * b) * 256 := by
        have h8 : 8 * (b + 1) = 8 * b + 8 := by ring
        rw [h8, pow_add]
        norm_num
      have hdiv : (x * 2 ^ (8 * (b + 1)) + y) / 256 = x * 2 ^ (8 * b) + y / 256 := by
        rw [hpow, ← Nat.mul_assoc, Nat.add_comm,
          Nat.add_mul_div_right _ _ (by norm_num : (0 : Nat) < 256), Nat.add_comm]
      have hmod : (x * 2 ^ (8 * (b + 1)) + y) % 256 = y % 256 := by
        rw [hpow, ← Nat.mul_assoc, Nat.add_comm, Nat.add_mul_mod_self_right]
      have hyd : y / 256 < 2 ^ (8 * b) :=
        (Nat.div_lt_iff_lt_mul (by norm_num : (0 : Nat) < 256)).2 (hpow ▸ hy)
      have hab : a + (b + 1) = (a + b) + 1 := by ring
      rw [hab]
      show toBytesBE (a + b) ((x * 2 ^ (8 * (b + 1)) + y) / 256)
        ++ [(x * 2 ^ (8 * (b + 1)) + y) % 256] = _
      rw [hdiv, hmod, ih _ hyd]
      show _ = toBytesBE a x ++ (toBytesBE b (y / 256) ++ [y % 256])
      simp [List.append_assoc]

/-- Big-endian value of a list of `k`-byte words (helper for relating
the digest integer to the concatenation of the state words). -/
def beValue (k : Nat) : List Nat → Nat
  | [] => 0
  | w :: ws => w * (2 ^ (8 * k)) ^ ws.length + beValue k ws

theorem beValue_lt (k : Nat) :
    ∀ ws : List Nat, (∀ w ∈ ws, w < 2 ^ (8 * k)) →
      beValue k ws < (2 ^ (8 * k)) ^ ws.length := by
  intro ws
  induction ws with
  | nil => intro _; simp [beValue]
  | cons w ws ih =>
      intro h
      have hw : w < 2 ^ (8 * k) := h w (by simp)
      have hrest : beValue k ws < (2 ^ (8 * k)) ^ ws.length :=
        ih (fun x hx => h x (by simp [hx]))
      have step1 : w * (2 ^ (8 * k)) ^ ws.length + beValue k ws
          < (w + 1) * (2 ^ (8 * k)) ^ ws.length := by
        have := Nat.add_lt_add_left hrest (w * (2 ^ (8 * k)) ^ ws.length)
        calc w * (2 ^ (8 * k)) ^ ws.length + beValue k ws
            < w * (2 ^ (8 * k)) ^ ws.length + (2 ^ (8 * k)) ^ ws.length := this
          _ = (w + 1) * (2 ^ (8 * k)) ^ ws.length := by ring
      have step2 : (w + 1) * (2 ^ (8 * k)) ^ ws.length
          ≤ (2 ^ (8 * k)) ^ (ws.length + 1) := by
        rw [pow_succ, Nat.mul_comm ((2 ^ (8 * k)) ^ ws.length) (2 ^ (8 * k))]
        exact Nat.mul_le_mul_right _ hw
      simpa [beValue] using lt_of_lt_of_le step1 step2

theorem pow_pow_to_pow_mul (k n : Nat) :
    ((2 : Nat) ^ (8 * k)) ^ n = 2 ^ (8 * (k * n)) := by
  rw [← pow_mul, Nat.mul_assoc]

theorem toBytesBE_words (k : Nat) :
    ∀ ws : List Nat, (∀ w ∈ ws, w < 2 ^ (8 * k)) →
      toBytesBE (k * ws.length) (beValue k ws) = (ws.map (toBytesBE k)).flatten := by
  intro ws
  induction ws with
  | nil => intro _; simp [beValue, toBytesBE]
  | cons w ws ih =>
      intro h
      have hrest : beValue k ws < 2 ^ (8 * (k * ws.length)) := by
        have hb := beValue_lt k ws (fun x hx => h x (by simp [hx]))
        rw [pow_pow_to_pow_mul] at hb
        exact hb
      have hlen : k * (w :: ws).length = k + k * ws.length := by
        simp [List.length_cons]; ring
      have hval : beValue k (w :: ws)
          = w * 2 ^ (8 * (k * ws.length)) + beValue k ws := by
        show w * (2 ^ (8 * k)) ^ ws.length + beValue k ws = _
        rw [pow_pow_to_pow_mul]
      rw [hlen, hval, toBytesBE_split k (k * ws.length) w (beValue k ws) hrest,
        ih (fun x hx => h x (by simp [hx]))]
      simp

theorem padZeros224_lt (l : Nat) : padZeros224 l < 64 := by
  unfold padZeros224; omega

theorem padZeros224_congr (l : Nat) : (l + padZeros224 l) % 64 = 56 := by
  unfold padZeros224; omega

theorem padZeros512_lt (l : Nat) : padZeros512 l < 128 := by
  unfold padZeros512; omega

theorem padZeros512_congr (l : Nat) : (l + padZeros512 l) % 128 = 112 := by
  unfold padZeros512; omega

theorem pad224_length (m : List Nat) :
    (pad224 m).length = m.length + 1 + padZeros224 (m.length + 1) + 8 := by
  simp [pad224, toBytesBE_length]
  omega

theorem pad512_length (m : List Nat) :
    (pad512 m).length = m.length + 1 + padZeros512 (m.length + 1) + 16 := by
  simp [pad512, toBytesBE_length]
  omega

theorem pad224_length_mod (m : List Nat) : (pad224 m).length % 64 = 0 := by
  have h1 := pad224_length m
  have h2 := padZeros224_congr (m.length + 1)
  omega

theorem pad512_length_mod (m : List Nat) : (pad512 m).length % 128 = 0 := by
  have h1 := pad512_length m
  have h2 := padZeros512_congr (m.length + 1)
  omega

/-- Predicate: all eight pieces fit in 32 bits. -/
def bounded32 (hp : Pieces) : Prop :=
  hp.h0 < 2 ^ 32 ∧ hp.h1 < 2 ^ 32 ∧ hp.h2 < 2 ^ 32 ∧ hp.h3 < 2 ^ 32 ∧
  hp.h4 < 2 ^ 32 ∧ hp.h5 < 2 ^ 32 ∧ hp.h6 < 2 ^ 32 ∧ hp.h7 < 2 ^ 32

/-- Predicate: all eight pieces fit in 64 bits. -/
def bounded64 (hp : Pieces) : Prop :=
  hp.h0 < 2 ^ 64 ∧ hp.h1 < 2 ^ 64 ∧ hp.h2 < 2 ^ 64 ∧ hp.h3 < 2 ^ 64 ∧
  hp.h4 < 2 ^ 64 ∧ hp.h5 < 2 ^ 64 ∧ hp.h6 < 2 ^ 64 ∧ hp.h7 < 2 ^ 64

theorem compress224_bounded (hp : Pieces) (c : List Nat) :
    bounded32 (compress224 hp c) := by
  refine ⟨?_, ?_, ?_, ?_, ?_, ?_, ?_, ?_⟩ <;>
    exact Nat.mod_lt _ (by norm_num)

theorem compress512_bounded (hp : Pieces) (c : List Nat) :
    bounded64 (compress512 hp c) := by
  refine ⟨?_, ?_, ?_, ?_, ?_, ?_, ?_, ?_⟩ <;>
    exact Nat.mod_lt _ (by norm_num)

theorem foldl_compress224_bounded (l : List (List Nat)) (hp : Pieces)
    (h : bounded32 hp) : bounded32 (l.foldl compress224 hp) := by
  induction l generalizing hp with
  | nil => exact h
  | cons c cs ih => exact ih _ (compress224_bounded hp c)

theorem foldl_compress512_bounded (l : List (List Nat)) (hp : Pieces)
    (h : bounded64 hp) : bounded64 (l.foldl compress512 hp) := by
  induction l generalizing hp with
  | nil => exact h
  | cons c cs ih => exact ih _ (compress512_bounded hp c)

theorem bounded32_init224 : bounded32 init224 := by
  unfold bounded32; decide

theorem bounded64_init512 : bounded64 init512 := by
  unfold bounded64; decide

theorem sha224pieces_bounded (m : List Nat) : bounded32 (sha224pieces m) :=
  foldl_compress224_bounded _ _ bounded32_init224

theorem sha512pieces_bounded (m : List Nat) : bounded64 (sha512pieces m) :=
  foldl_compress512_bounded _ _ bounded64_init512

theorem digest224_eq (hp : Pieces) :
    digest224 hp = hp.h0 * 2 ^ 192 + hp.h1 * 2 ^ 160 + hp.h2 * 2 ^ 128
      + hp.h3 * 2 ^ 96 + hp.h4 * 2 ^ 64 + hp.h5 * 2 ^ 32 + hp.h6 := by
  simp [digest224, List.enum, List.enumFrom, leftshift, Nat.shiftLeft_eq]
  ring

set_option exponentiation.threshold 600 in
theorem digest512_eq (hp : Pieces) :
    digest512 hp = hp.h0 * 2 ^ 448 + hp.h1 * 2 ^ 384 + hp.h2 * 2 ^ 320
      + hp.h3 * 2 ^ 256 + hp.h4 * 2 ^ 192 + hp.h5 * 2 ^ 128
      + hp.h6 * 2 ^ 64 + hp.h7 := by
  simp [digest512, List.enum, List.enumFrom, leftshift, Nat.shiftLeft_eq]
  ring

theorem digest224_as_beValue (hp : Pieces) :
    digest224 hp = beValue 4 [hp.h0, hp.h1, hp.h2, hp.h3, hp.h4, hp.h5, hp.h6] := by
  rw [digest224_eq]
  simp only [beValue, List.length_nil, List.length_cons]
  norm_num
  ring

set_option exponentiation.threshold 600 in
theorem digest512_as_beValue (hp : Pieces) :
    digest512 hp
      = beValue 8 [hp.h0, hp.h1, hp.h2, hp.h3, hp.h4, hp.h5, hp.h6, hp.h7] := by
  rw [digest512_eq]
  simp only [beValue, List.length_nil, List.length_cons]
  norm_num
  ring

theorem bounded32_words_lt (hp : Pieces) (h : bounded32 hp) :
    ∀ w ∈ [hp.h0, hp.h1, hp.h2, hp.h3, hp.h4, hp.h5, hp.h6], w < 2 ^ (8 * 4) := by
  obtain ⟨b0, b1, b2, b3, b4, b5, b6, _⟩ := h
  intro w hw
  have h32 : (2 : Nat) ^ (8 * 4) = 2 ^ 32 := by norm_num
  rw [h32]
  simp only [List.mem_cons, List.not_mem_nil, or_false] at hw
  rcases hw with rfl | rfl | rfl | rfl | rfl | rfl | rfl
  exacts [b0, b1, b2, b3, b4, b5, b6]

theorem bounded64_words_lt (hp : Pieces) (h : bounded64 hp) :
    ∀ w ∈ [hp.h0, hp.h1, hp.h2, hp.h3, hp.h4, hp.h5, hp.h6, hp.h7],
      w < 2 ^ (8 * 8) := by
  obtain ⟨b0, b1, b2, b3, b4, b5, b6, b7⟩ := h
  intro w hw
  have h64 : (2 : Nat) ^ (8 * 8) = 2 ^ 64 := by norm_num
  rw [h64]
  simp only [List.mem_cons, List.not_mem_nil, or_false] at hw
  rcases hw with rfl | rfl | rfl | rfl | rfl | rfl | rfl | rfl
  exacts [b0, b1, b2, b3, b4, b5, b6, b7]

theorem digest224_lt (hp : Pieces) (h : bounded32 hp) :
    digest224 hp < 2 ^ 224 := by
  rw [digest224_as_beValue]
  have hb := beValue_lt 4 [hp.h0, hp.h1, hp.h2, hp.h3, hp.h4, hp.h5, hp.h6]
    (bounded32_words_lt hp h)
  rw [pow_pow_to_pow_mul] at hb
  have he : 8 * (4 * ([hp.h0, hp.h1, hp.h2, hp.h3, hp.h4, hp.h5, hp.h6] : List Nat).length) = 224 := by
    simp
  rw [he] at hb
  exact hb

theorem digest512_lt (hp : Pieces) (h : bounded64 hp) :
    digest512 hp < 2 ^ 512 := by
  rw [digest512_as_beValue]
  have hb := beValue_lt 8 [hp.h0, hp.h1, hp.h2, hp.h3, hp.h4, hp.h5, hp.h6, hp.h7]
    (bounded64_words_lt hp h)
  rw [pow_pow_to_pow_mul] at hb
  have he : 8 * (8 * ([hp.h0, hp.h1, hp.h2, hp.h3, hp.h4, hp.h5, hp.h6, hp.h7] : List Nat).length) = 512 := by
    simp
  rw [he] at hb
  exact hb

theorem digestBytes224_concat (hp : Pieces) (h : bounded32 hp) :
    digestBytes224 hp = toBytesBE 4 hp.h0 ++ toBytesBE 4 hp.h1 ++ toBytesBE 4 hp.h2
      ++ toBytesBE 4 hp.h3 ++ toBytesBE 4 hp.h4 ++ toBytesBE 4 hp.h5
      ++ toBytesBE 4 hp.h6 := by
  have hw := toBytesBE_words 4 [hp.h0, hp.h1, hp.h2, hp.h3, hp.h4, hp.h5, hp.h6]
    (bounded32_words_lt hp h)
  rw [digestBytes224, digest224_as_beValue]
  have h28 : (28 : Nat) = 4 * ([hp.h0, hp.h1, hp.h2, hp.h3, hp.h4, hp.h5, hp.h6] : List Nat).length := by
    simp
  rw [h28, hw]
  simp [List.append_assoc]

theorem digestBytes512_concat (hp : Pieces) (h : bounded64 hp) :
    digestBytes512 hp = toBytesBE 8 hp.h0 ++ toBytesBE 8 hp.h1 ++ toBytesBE 8 hp.h2
      ++ toBytesBE 8 hp.h3 ++ toBytesBE 8 hp.h4 ++ toBytesBE 8 hp.h5
      ++ toBytesBE 8 hp.h6 ++ toBytesBE 8 hp.h7 := by
  have hw := toBytesBE_words 8 [hp.h0, hp.h1, hp.h2, hp.h3, hp.h4, hp.h5, hp.h6, hp.h7]
    (bounded64_words_lt hp h)
  rw [digestBytes512, digest512_as_beValue]
  have h64 : (64 : Nat) = 8 * ([hp.h0, hp.h1, hp.h2, hp.h3, hp.h4, hp.h5, hp.h6, hp.h7] : List Nat).length := by
    simp
  rw [h64, hw]
  simp [List.append_assoc]

/-!
Lemmas about the schedule-extension fold
`(List.range n).foldl (fun w _ => w ++ [step w]) w0`
shared by both engines.
-/

theorem schedFold_succ (step : List Nat → Nat) (n : Nat) (w0 : List Nat) :
    (List.range (n + 1)).foldl (fun w _ => w ++ [step w]) w0
      = ((List.range n).foldl (fun w _ => w ++ [step w]) w0)
        ++ [step ((List.range n).foldl (fun w _ => w ++ [step w]) w0)] := by
  rw [List.range_succ, List.foldl_append]
  rfl

theorem schedFold_length (step : List Nat → Nat) (n : Nat) (w0 : List Nat) :
    ((List.range n).foldl (fun w _ => w ++ [step w]) w0).length
      = w0.length + n := by
  induction n with
  | zero => rfl
  | succ n ih =>
      rw [schedFold_succ, List.length_append, ih]
      simp [Nat.add_assoc]

theorem schedFold_stable (step : List Nat → Nat) (m n : Nat) (hmn : m ≤ n)
    (w0 : List Nat) (i : Nat) (hi : i < w0.length + m) :
    ((List.range n).foldl (fun w _ => w ++ [step w]) w0).getD i 0
      = ((List.range m).foldl (fun w _ => w ++ [step w]) w0).getD i 0 := by
  induction n, hmn using Nat.le_induction with
  | base => rfl
  | succ n hmn ih =>
      rw [schedFold_succ,
        List.getD_append _ _ _ _ (by rw [schedFold_length]; omega), ih]

theorem schedFold_getD (step : List Nat → Nat) (n : Nat) (w0 : List Nat)
    (i : Nat) (hlo : w0.length ≤ i) (hhi : i < w0.length + n) :
    ((List.range n).foldl (fun w _ => w ++ [step w]) w0).getD i 0
      = step ((List.range (i - w0.length)).foldl (fun w _ => w ++ [step w]) w0) := by
  have hstage : ((List.range n).foldl (fun w _ => w ++ [step w]) w0).getD i 0
      = ((List.range ((i - w0.length) + 1)).foldl (fun w _ => w ++ [step w]) w0).getD i 0 :=
    schedFold_stable step ((i - w0.length) + 1) n (by omega) w0 i (by omega)
  rw [hstage, schedFold_succ,
    List.getD_append_right _ _ _ _ (by rw [schedFold_length]; omega),
    schedFold_length]
  have hz : i - (w0.length + (i - w0.length)) = 0 := by omega
  rw [hz]
  rfl

theorem initW224_length (chunk : List Nat) : (initW224 chunk).length = 16 := by
  simp [initW224]

theorem initW512_length (chunk : List Nat) : (initW512 chunk).length = 16 := by
  simp [initW512]

theorem sched224_length (chunk : List Nat) : (sched224 chunk).length = 64 := by
  rw [sched224, schedFold_length, initW224_length]

theorem sched512_length (chunk : List Nat) : (sched512 chunk).length = 80 := by
  rw [sched512, schedFold_length, initW512_length]

theorem sched224_seed (chunk : List Nat) (i : Nat) (h : i < 16) :
    (sched224 chunk).getD i 0 = fromBytesBE ((chunk.drop (4 * i)).take 4) := by
  have hstable := schedFold_stable schedStep224 0 48 (by omega) (initW224 chunk) i
    (by rw [initW224_length]; omega)
  rw [sched224, hstable]
  have hi : i < (initW224 chunk).length := by rw [initW224_length]; omega
  show (initW224 chunk).getD i 0 = _
  rw [List.getD_eq_getElem _ _ hi]
  simp [initW224]

theorem sched512_seed (chunk : List Nat) (i : Nat) (h : i < 16) :
    (sched512 chunk).getD i 0 = fromBytesBE ((chunk.drop (8 * i)).take 8) := by
  have hstable := schedFold_stable schedStep512 0 64 (by omega) (initW512 chunk) i
    (by rw [initW512_length]; omega)
  rw [sched512, hstable]
  have hi : i < (initW512 chunk).length := by rw [initW512_length]; omega
  show (initW512 chunk).getD i 0 = _
  rw [List.getD_eq_getElem _ _ hi]
  simp [initW512]

theorem schedStep224_spec (w : List Nat) :
    schedStep224 w
      = (w.getD (w.length - 16) 0
          + (rightrotate (w.getD (w.length - 15) 0) 7
              ^^^ rightrotate (w.getD (w.length - 15) 0) 18
              ^^^ rightshift (w.getD (w.length - 15) 0) 3) % 2 ^ 32
          + w.getD (w.length - 7) 0
          + (rightrotate (w.getD (w.length - 2) 0) 17
              ^^^ rightrotate (w.getD (w.length - 2) 0) 19
              ^^^ rightshift (w.getD (w.length - 2) 0) 10) % 2 ^ 32) % 2 ^ 32 :=
  rfl

theorem schedStep512_spec (w : List Nat) :
    schedStep512 w
      = (w.getD (w.length - 16) 0
          + (rightrotate_64 (w.getD (w.length - 15) 0) 1
              ^^^ rightrotate_64 (w.getD (w.length - 15) 0) 8
              ^^^ rightshift (w.getD (w.length - 15) 0) 7) % 2 ^ 64
          + w.getD (w.length - 7) 0
          + (rightrotate_64 (w.getD (w.length - 2) 0) 19
              ^^^ rightrotate_64 (w.getD (w.length - 2) 0) 61
              ^^^ rightshift (w.getD (w.length - 2) 0) 6) % 2 ^ 64) % 2 ^ 64 :=
  rfl

theorem sched224_recurrence (chunk : List Nat) (i : Nat) (h16 : 16 ≤ i)
    (h64 : i < 64) :
    (sched224 chunk).getD i 0
      = ((sched224 chunk).getD (i - 16) 0
          + (rightrotate ((sched224 chunk).getD (i - 15) 0) 7
              ^^^ rightrotate ((sched224 chunk).getD (i - 15) 0) 18
              ^^^ rightshift ((sched224 chunk).getD (i - 15) 0) 3) % 2 ^ 32
          + (sched224 chunk).getD (i - 7) 0
          + (rightrotate ((sched224 chunk).getD (i - 2) 0) 17
              ^^^ rightrotate ((sched224 chunk).getD (i - 2) 0) 19
              ^^^ rightshift ((sched224 chunk).getD (i - 2) 0) 10) % 2 ^ 32) % 2 ^ 32 := by
  have hmain := schedFold_getD schedStep224 48 (initW224 chunk) i
    (by rw [initW224_length]; omega) (by rw [initW224_length]; omega)
  rw [initW224_length] at hmain
  rw [sched224, hmain, schedStep224_spec]
  have hlen : ((List.range (i - 16)).foldl (fun w _ => w ++ [schedStep224 w])
      (initW224 chunk)).length = i := by
    rw [schedFold_length, initW224_length]; omega
  rw [hlen]
  have hs16 := schedFold_stable schedStep224 (i - 16) 48 (by omega)
    (initW224 chunk) (i - 16) (by rw [initW224_length]; omega)
  have hs15 := schedFold_stable schedStep224 (i - 16) 48 (by omega)
    (initW224 chunk) (i - 15) (by rw [initW224_length]; omega)
  have hs7 := schedFold_stable schedStep224 (i - 16) 48 (by omega)
    (initW224 chunk) (i - 7) (by rw [initW224_length]; omega)
  have hs2 := schedFold_stable schedStep224 (i - 16) 48 (by omega)
    (initW224 chunk) (i - 2) (by rw [initW224_length]; omega)
  rw [← hs16, ← hs15, ← hs7, ← hs2]

theorem sched512_recurrence (chunk : List Nat) (i : Nat) (h16 : 16 ≤ i)
    (h80 : i < 80) :
    (sched512 chunk).getD i 0
      = ((sched512 chunk).getD (i - 16) 0
          + (rightrotate_64 ((sched512 chunk).getD (i - 15) 0) 1
              ^^^ rightrotate_64 ((sched512 chunk).getD (i - 15) 0) 8
              ^^^ rightshift ((sched512 chunk).getD (i - 15) 0) 7) % 2 ^ 64
          + (sched512 chunk).getD (i - 7) 0
          + (rightrotate_64 ((sched512 chunk).getD (i - 2) 0) 19
              ^^^ rightrotate_64 ((sched512 chunk).getD (i - 2) 0) 61
              ^^^ rightshift ((sched512 chunk).getD (i - 2) 0) 6) % 2 ^ 64) % 2 ^ 64 := by
  have hmain := schedFold_getD schedStep512 64 (initW512 chunk) i
    (by rw [initW512_length]; omega) (by rw [initW512_length]; omega)
  rw [initW512_length] at hmain
  rw [sched512, hmain, schedStep512_spec]
  have hlen : ((List.range (i - 16)).foldl (fun w _ => w ++ [schedStep512 w])
      (initW512 chunk)).length = i := by
    rw [schedFold_length, initW512_length]; omega
  rw [hlen]
  have hs16 := schedFold_stable schedStep512 (i - 16) 64 (by omega)
    (initW512 chunk) (i - 16) (by rw [initW512_length]; omega)
  have hs15 := schedFold_stable schedStep512 (i - 16) 64 (by omega)
    (initW512 chunk) (i - 15) (by rw [initW512_length]; omega)
  have hs7 := schedFold_stable schedStep512 (i - 16) 64 (by omega)
    (initW512 chunk) (i - 7) (by rw [initW512_length]; omega)
  have hs2 := schedFold_stable schedStep512 (i - 16) 64 (by omega)
    (initW512 chunk) (i - 2) (by rw [initW512_length]; omega)
  rw [← hs16, ← hs15, ← hs7, ← hs2]

/-!
Lemmas about the hexadecimal rendering and the length field of the
padded message.
-/

theorem hexFixed_length : ∀ w x : Nat, (hexFixed w x).length = w := by
  intro w
  induction w with
  | zero => intro x; rfl
  | succ w ih => intro x; simp [hexFixed, ih]

theorem hexDigitChar_classes :
    ∀ d : Nat, d < 16 →
      (48 ≤ (hexDigitChar d).toNat ∧ (hexDigitChar d).toNat ≤ 57)
      ∨ (97 ≤ (hexDigitChar d).toNat ∧ (hexDigitChar d).toNat ≤ 102) := by
  decide

theorem hexFixed_mem : ∀ (w x : Nat) (c : Char), c ∈ hexFixed w x →
    ∃ d : Nat, d < 16 ∧ c = hexDigitChar d := by
  intro w
  induction w with
  | zero => intro x c hc; simp [hexFixed] at hc
  | succ w ih =>
      intro x c hc
      simp only [hexFixed, List.mem_append, List.mem_singleton] at hc
      rcases hc with hc | hc
      · exact ih (x / 16) c hc
      · exact ⟨x % 16, Nat.mod_lt _ (by norm_num), hc⟩

theorem hexFixed_pairs : ∀ n x : Nat,
    hexFixed (2 * n) x
      = ((toBytesBE n x).map
          (fun b => [hexDigitChar (b / 16), hexDigitChar (b % 16)])).flatten := by
  intro n
  induction n with
  | zero => intro x; rfl
  | succ n ih =>
      intro x
      have h2 : 2 * (n + 1) = (2 * n + 1) + 1 := by ring
      rw [h2]
      simp only [hexFixed, toBytesBE, List.map_append, List.flatten_append]
      have hdiv : x / 16 / 16 = x / 256 := by omega
      have hm1 : x / 16 % 16 = x % 256 / 16 := by omega
      have hm2 : x % 16 = x % 256 % 16 := by omega
      rw [hdiv, hm1, hm2, ih]
      simp

theorem pad224_lenField (m : List Nat) :
    (pad224 m).drop ((pad224 m).length - 8)
      = toBytesBE 8 ((8 * m.length) % 2 ^ 64) := by
  have hlen : (pad224 m).length - 8
      = (m ++ [0x80] ++ List.replicate (padZeros224 (m.length + 1)) 0).length := by
    rw [pad224_length]
    simp
    omega
  rw [hlen]
  show ((m ++ [0x80] ++ List.replicate (padZeros224 (m.length + 1)) 0)
      ++ toBytesBE 8 (origLenBits224 m.length)).drop
        (m ++ [0x80] ++ List.replicate (padZeros224 (m.length + 1)) 0).length = _
  rw [List.drop_left]
  rfl

theorem pad512_lenField (m : List Nat) :
    (pad512 m).drop ((pad512 m).length - 16)
      = toBytesBE 16 ((8 * m.length) % 2 ^ 128) := by
  have hlen : (pad512 m).length - 16
      = (m ++ [0x80] ++ List.replicate (padZeros512 (m.length + 1)) 0).length := by
    rw [pad512_length]
    simp
    omega
  rw [hlen]
  show ((m ++ [0x80] ++ List.replicate (padZeros512 (m.length + 1)) 0)
      ++ toBytesBE 16 (origLenBits512 m.length)).drop
        (m ++ [0x80] ++ List.replicate (padZeros512 (m.length + 1)) 0).length = _
  rw [List.drop_left]
  rfl

/-!
Claim theorems.
-/

/-- C2: for every input `m`, the SHA224 digest is a byte sequence of
length exactly 28 and the SHA512 digest one of length exactly 64,
regardless of the length of `m`; the SHA224 digest drops the last of
the eight state words and concatenates the remaining seven big-endian,
the SHA512 digest concatenates all eight.  (The digest integers fit
their fields, so the byte conversion in `hexdigest` never overflows.) -/
theorem digest_fixed_size_and_truncation : ∀ m : List Nat,
    (digestBytes224 (sha224pieces m)).length = 28
    ∧ digest224 (sha224pieces m) < 2 ^ 224
    ∧ digestBytes224 (sha224pieces m)
        = toBytesBE 4 (sha224pieces m).h0 ++ toBytesBE 4 (sha224pieces m).h1
          ++ toBytesBE 4 (sha224pieces m).h2 ++ toBytesBE 4 (sha224pieces m).h3
          ++ toBytesBE 4 (sha224pieces m).h4 ++ toBytesBE 4 (sha224pieces m).h5
          ++ toBytesBE 4 (sha224pieces m).h6
    ∧ (digestBytes512 (sha512pieces m)).length = 64
    ∧ digest512 (sha512pieces m) < 2 ^ 512
    ∧ digestBytes512 (sha512pieces m)
        = toBytesBE 8 (sha512pieces m).h0 ++ toBytesBE 8 (sha512pieces m).h1
          ++ toBytesBE 8 (sha512pieces m).h2 ++ toBytesBE 8 (sha512pieces m).h3
          ++ toBytesBE 8 (sha512pieces m).h4 ++ toBytesBE 8 (sha512pieces m).h5
          ++ toBytesBE 8 (sha512pieces m).h6 ++ toBytesBE 8 (sha512pieces m).h7 :=
  fun m =>
    ⟨toBytesBE_length _ _,
     digest224_lt _ (sha224pieces_bounded m),
     digestBytes224_concat _ (sha224pieces_bounded m),
     toBytesBE_length _ _,
     digest512_lt _ (sha512pieces_bounded m),
     digestBytes512_concat _ (sha512pieces_bounded m)⟩

/-- C3, counterexample: at input length `2 ^ 61` bytes (bit length
`2 ^ 64`, exceeding the 64-bit length field) the SHA224 engine's length
field silently wraps to `0` instead of signalling an `InputTooLarge`
error (the code has no error path at all); likewise for SHA512 at
`2 ^ 125` bytes. -/
theorem length_field_wrap_cex :
    origLenBits224 (2 ^ 61) = 0
    ∧ origLenBits224 (2 ^ 61) ≠ 8 * 2 ^ 61
    ∧ 2 ^ 64 - 1 < 8 * 2 ^ 61
    ∧ origLenBits512 (2 ^ 125) = 0
    ∧ origLenBits512 (2 ^ 125) ≠ 8 * 2 ^ 125
    ∧ 2 ^ 128 - 1 < 8 * 2 ^ 125 := by
  refine ⟨?_, ?_, ?_, ?_, ?_, ?_⟩ <;> decide

/-- C3, amended: the engines never signal an error; for every input the
padding is total and block-aligned, and the trailing length field holds
the bit length reduced modulo `2 ^ 64` (SHA224) resp. `2 ^ 128`
(SHA512) — silent modular wraparound, exactly as the padding comment in
the source states. -/
theorem length_field_wraps_modulo : ∀ m : List Nat,
    (pad224 m).length % 64 = 0
    ∧ (pad224 m).drop ((pad224 m).length - 8)
        = toBytesBE 8 ((8 * m.length) % 2 ^ 64)
    ∧ (pad512 m).length % 128 = 0
    ∧ (pad512 m).drop ((pad512 m).length - 16)
        = toBytesBE 16 ((8 * m.length) % 2 ^ 128) :=
  fun m => ⟨pad224_length_mod m, pad224_lenField m,
    pad512_length_mod m, pad512_lenField m⟩

/-- C4: for every input, the padded message is the input, one `0x80`
byte, zero bytes until the running length is `≡ 56 (mod 64)` (resp.
`≡ 112 (mod 128)`), then the message bit length as an 8-byte (resp.
16-byte) big-endian field; the zero count is below one block (so the
stated congruence is reached as soon as possible), and the total padded
length is `≡ 0` modulo the block size. -/
theorem padding_structure : ∀ m : List Nat,
    pad224 m = m ++ [0x80] ++ List.replicate (padZeros224 (m.length + 1)) 0
        ++ toBytesBE 8 ((8 * m.length) % 2 ^ 64)
    ∧ (m.length + 1 + padZeros224 (m.length + 1)) % 64 = 56
    ∧ padZeros224 (m.length + 1) < 64
    ∧ (toBytesBE 8 ((8 * m.length) % 2 ^ 64)).length = 8
    ∧ (pad224 m).length % 64 = 0
    ∧ pad512 m = m ++ [0x80] ++ List.replicate (padZeros512 (m.length + 1)) 0
        ++ toBytesBE 16 ((8 * m.length) % 2 ^ 128)
    ∧ (m.length + 1 + padZeros512 (m.length + 1)) % 128 = 112
    ∧ padZeros512 (m.length + 1) < 128
    ∧ (toBytesBE 16 ((8 * m.length) % 2 ^ 128)).length = 16
    ∧ (pad512 m).length % 128 = 0 :=
  fun m =>
    ⟨rfl, padZeros224_congr _, padZeros224_lt _, toBytesBE_length _ _,
     pad224_length_mod m,
     rfl, padZeros512_congr _, padZeros512_lt _, toBytesBE_length _ _,
     pad512_length_mod m⟩

set_option maxRecDepth 10000 in
/-- C7, counterexample: the input of 56 zero bytes has residue
`56 ≠ 63 (mod 64)`, yet its SHA224-padded length is two blocks beyond
the full blocks contained in the input, not one. -/
theorem padding_boundary_cex :
    56 % 64 ≠ 63
    ∧ (pad224 (List.replicate 56 0)).length = 64 * (56 / 64) + 2 * 64
    ∧ (pad224 (List.replicate 56 0)).length ≠ 64 * (56 / 64) + 64 := by
  refine ⟨?_, ?_, ?_⟩ <;> decide

/-- C7, amended: the boundary residues are all residues within one
length field plus flag byte of the end of a block: when
`len(m) mod 64 ≥ 56` (resp. `len(m) mod 128 ≥ 112`) the padded length
is two blocks beyond the input's full blocks, otherwise exactly one
block beyond. -/
theorem padded_length_blocks : ∀ m : List Nat,
    (56 ≤ m.length % 64 →
      (pad224 m).length = 64 * (m.length / 64) + 2 * 64)
    ∧ (m.length % 64 < 56 →
      (pad224 m).length = 64 * (m.length / 64) + 64)
    ∧ (112 ≤ m.length % 128 →
      (pad512 m).length = 128 * (m.length / 128) + 2 * 128)
    ∧ (m.length % 128 < 112 →
      (pad512 m).length = 128 * (m.length / 128) + 128) := by
  intro m
  have h224 := pad224_length m
  have h512 := pad512_length m
  unfold padZeros224 at h224
  unfold padZeros512 at h512
  refine ⟨fun h => ?_, fun h => ?_, fun h => ?_, fun h => ?_⟩ <;> omega

set_option maxRecDepth 10000 in
/-- Witness for `padded_length_blocks` at lengths 63, 0, 127, 0. -/
theorem padded_length_blocks_witness :
    (pad224 (List.replicate 63 0)).length
        = 64 * ((List.replicate 63 (0 : Nat)).length / 64) + 2 * 64
    ∧ (pad224 []).length = 64 * (([] : List Nat).length / 64) + 64
    ∧ (pad512 (List.replicate 127 0)).length
        = 128 * ((List.replicate 127 (0 : Nat)).length / 128) + 2 * 128
    ∧ (pad512 []).length = 128 * (([] : List Nat).length / 128) + 128 :=
  ⟨(padded_length_blocks (List.replicate 63 0)).1 (by decide),
   (padded_length_blocks []).2.1 (by decide),
   (padded_length_blocks (List.replicate 127 0)).2.2.1 (by decide),
   (padded_length_blocks []).2.2.2 (by decide)⟩

/-- C8: hashing is deterministic — two complete computations, each on a
fresh engine, over equal inputs produce identical hex digests, for both
variants (the model is a pure function of the input alone). -/
theorem hashing_deterministic : ∀ m1 m2 : List Nat, m1 = m2 →
    hash_SHA224 m1 = hash_SHA224 m2 ∧ hash_SHA512 m1 = hash_SHA512 m2 :=
  fun _ _ h => ⟨congrArg _ h, congrArg _ h⟩

/-- Witness for `hashing_deterministic` at the bytes of `"abc"`. -/
theorem hashing_deterministic_witness :
    hash_SHA224 abcBytes = hash_SHA224 abcBytes
    ∧ hash_SHA512 abcBytes = hash_SHA512 abcBytes :=
  hashing_deterministic abcBytes abcBytes rfl

set_option maxRecDepth 10000 in
/-- C1: known-answer conformance — on the empty input, on the bytes of
`"abc"`, on the NIST two-block test vectors and on `"Hello World"`,
both engines produce, byte for byte, exactly the digests published for
SHA-224 resp. SHA-512 (and the hex rendering of the `"Hello World"`
digests equals the hex strings a conformant implementation prints). -/
theorem known_answer_vectors :
    digestBytes224 (sha224pieces [])
      = toBytesBE 28 0xD14A028C2A3A2BC9476102BB288234C415A2B01F828EA62AC5B3E42F
    ∧ digestBytes224 (sha224pieces abcBytes)
      = toBytesBE 28 0x23097D223405D8228642A477BDA255B32AADBCE4BDA0B3F7E36C9DA7
    ∧ digestBytes224 (sha224pieces nist224Bytes)
      = toBytesBE 28 0x75388B16512776CC5DBA5DA1FD890150B0C6455CB4F58B1952522525
    ∧ digestBytes224 (sha224pieces helloWorldBytes)
      = toBytesBE 28 0xC4890FAFFDB0105D991A461E668E276685401B02EAB1EF4372795047
    ∧ digestBytes512 (sha512pieces [])
      = toBytesBE 64 0xCF83E1357EEFB8BDF1542850D66D8007D620E4050B5715DC83F4A921D36CE9CE47D0D13C5D85F2B0FF8318D2877EEC2F63B931BD47417A81A538327AF927DA3E
    ∧ digestBytes512 (sha512pieces abcBytes)
      = toBytesBE 64 0xDDAF35A193617ABACC417349AE20413112E6FA4E89A97EA20A9EEEE64B55D39A2192992A274FC1A836BA3C23A3FEEBBD454D4423643CE80E2A9AC94FA54CA49F
    ∧ digestBytes512 (sha512pieces nist512Bytes)
      = toBytesBE 64 0x8E959B75DAE313DA8CF4F72814FC143F8F7779C6EB9F7FA17299AEADB6889018501D289E4900F7E4331B99DEC4B5433AC7D329EEB6DD26545E96E55B874BE909
    ∧ digestBytes512 (sha512pieces helloWorldBytes)
      = toBytesBE 64 0x2C74FD17EDAFD80E8447B0D46741EE243B7EB74DD2149A0AB1B9246FB30382F27E853D8585719E0E67CBDA0DAA8F51671064615D645AE27ACB15BFB1447F459B
    ∧ hexdigest224 helloWorldBytes
      = "c4890faffdb0105d991a461e668e276685401b02eab1ef4372795047".data
    ∧ hexdigest512 helloWorldBytes
      = "2c74fd17edafd80e8447b0d46741ee243b7eb74dd2149a0ab1b9246fb30382f27e853d8585719e0e67cbda0daa8f51671064615d645ae27acb15bfb1447f459b".data := by
  refine ⟨?_, ?_, ?_, ?_, ?_, ?_, ?_, ?_, ?_, ?_⟩ <;> decide

/-- C5: in every round, `t1` and `t2` are formed from `Σ1(e)`,
`ch(e,f,g)`, the round constant and the schedule word, resp. `Σ0(a)`
and `maj(a,b,c)`, all modulo the word size; the registers rotate as
`a ← t1+t2`, `e ← d+t1`, all others shifting down one position; and
after the final round the eight registers are added element-wise into
the running pieces (accumulation, not replacement). -/
theorem round_rotation_and_accumulation :
    (∀ ki wi : Nat, ∀ r : Regs,
      round224 ki wi r =
        { a := ((r.h + (rightrotate r.e 6 ^^^ rightrotate r.e 11 ^^^ rightrotate r.e 25) % 2 ^ 32
                  + ((r.e &&& r.f) ^^^ (pyNot32 r.e &&& r.g)) % 2 ^ 32 + ki + wi) % 2 ^ 32
                + ((rightrotate r.a 2 ^^^ rightrotate r.a 13 ^^^ rightrotate r.a 22) % 2 ^ 32
                  + ((r.a &&& r.b) ^^^ (r.a &&& r.c) ^^^ (r.b &&& r.c)) % 2 ^ 32) % 2 ^ 32) % 2 ^ 32,
          b := r.a, c := r.b, d := r.c,
          e := (r.d + (r.h + (rightrotate r.e 6 ^^^ rightrotate r.e 11 ^^^ rightrotate r.e 25) % 2 ^ 32
                  + ((r.e &&& r.f) ^^^ (pyNot32 r.e &&& r.g)) % 2 ^ 32 + ki + wi) % 2 ^ 32) % 2 ^ 32,
          f := r.e, g := r.f, h := r.g })
    ∧ (∀ ki wi : Nat, ∀ r : Regs,
      round512 ki wi r =
        { a := ((r.h + (rightrotate_64 r.e 14 ^^^ rightrotate_64 r.e 18 ^^^ rightrotate_64 r.e 41) % 2 ^ 64
                  + ((r.e &&& r.f) ^^^ (pyNot64 r.e &&& r.g)) % 2 ^ 64 + ki + wi) % 2 ^ 64
                + ((rightrotate_64 r.a 28 ^^^ rightrotate_64 r.a 34 ^^^ rightrotate_64 r.a 39) % 2 ^ 64
                  + ((r.a &&& r.b) ^^^ (r.a &&& r.c) ^^^ (r.b &&& r.c)) % 2 ^ 64) % 2 ^ 64) % 2 ^ 64,
          b := r.a, c := r.b, d := r.c,
          e := (r.d + (r.h + (rightrotate_64 r.e 14 ^^^ rightrotate_64 r.e 18 ^^^ rightrotate_64 r.e 41) % 2 ^ 64
                  + ((r.e &&& r.f) ^^^ (pyNot64 r.e &&& r.g)) % 2 ^ 64 + ki + wi) % 2 ^ 64) % 2 ^ 64,
          f := r.e, g := r.f, h := r.g })
    ∧ (∀ hp : Pieces, ∀ chunk : List Nat,
      compress224 hp chunk =
        { h0 := (hp.h0 + ((List.range 64).foldl
            (fun r i => round224 (k224.getD i 0) ((sched224 chunk).getD i 0) r)
            { a := hp.h0, b := hp.h1, c := hp.h2, d := hp.h3,
              e := hp.h4, f := hp.h5, g := hp.h6, h := hp.h7 }).a) % 2 ^ 32,
          h1 := (hp.h1 + ((List.range 64).foldl
            (fun r i => round224 (k224.getD i 0) ((sched224 chunk).getD i 0) r)
            { a := hp.h0, b := hp.h1, c := hp.h2, d := hp.h3,
              e := hp.h4, f := hp.h5, g := hp.h6, h := hp.h7 }).b) % 2 ^ 32,
          h2 := (hp.h2 + ((List.range 64).foldl
            (fun r i => round224 (k224.getD i 0) ((sched224 chunk).getD i 0) r)
            { a := hp.h0, b := hp.h1, c := hp.h2, d := hp.h3,
              e := hp.h4, f := hp.h5, g := hp.h6, h := hp.h7 }).c) % 2 ^ 32,
          h3 := (hp.h3 + ((List.range 64).foldl
            (fun r i => round224 (k224.getD i 0) ((sched224 chunk).getD i 0) r)
            { a := hp.h0, b := hp.h1, c := hp.h2, d := hp.h3,
              e := hp.h4, f := hp.h5, g := hp.h6, h := hp.h7 }).d) % 2 ^ 32,
          h4 := (hp.h4 + ((List.range 64).foldl
            (fun r i => round224 (k224.getD i 0) ((sched224 chunk).getD i 0) r)
            { a := hp.h0, b := hp.h1, c := hp.h2, d := hp.h3,
              e := hp.h4, f := hp.h5, g := hp.h6, h := hp.h7 }).e) % 2 ^ 32,
          h5 := (hp.h5 + ((List.range 64).foldl
            (fun r i => round224 (k224.getD i 0) ((sched224 chunk).getD i 0) r)
            { a := hp.h0, b := hp.h1, c := hp.h2, d := hp.h3,
              e := hp.h4, f := hp.h5, g := hp.h6, h := hp.h7 }).f) % 2 ^ 32,
          h6 := (hp.h6 + ((List.range 64).foldl
            (fun r i => round224 (k224.getD i 0) ((sched224 chunk).getD i 0) r)
            { a := hp.h0, b := hp.h1, c := hp.h2, d := hp.h3,
              e := hp.h4, f := hp.h5, g := hp.h6, h := hp.h7 }).g) % 2 ^ 32,
          h7 := (hp.h7 + ((List.range 64).foldl
            (fun r i => round224 (k224.getD i 0) ((sched224 chunk).getD i 0) r)
            { a := hp.h0, b := hp.h1, c := hp.h2, d := hp.h3,
              e := hp.h4, f := hp.h5, g := hp.h6, h := hp.h7 }).h) % 2 ^ 32 })
    ∧ (∀ hp : Pieces, ∀ chunk : List Nat,
      compress512 hp chunk =
        { h0 := (hp.h0 + ((List.range 80).foldl
            (fun r i => round512 (k512.getD i 0) ((sched512 chunk).getD i 0) r)
            { a := hp.h0, b := hp.h1, c := hp.h2, d := hp.h3,
              e := hp.h4, f := hp.h5, g := hp.h6, h := hp.h7 }).a) % 2 ^ 64,
          h1 := (hp.h1 + ((List.range 80).foldl
            (fun r i => round512 (k512.getD i 0) ((sched512 chunk).getD i 0) r)
            { a := hp.h0, b := hp.h1, c := hp.h2, d := hp.h3,
              e := hp.h4, f := hp.h5, g := hp.h6, h := hp.h7 }).b) % 2 ^ 64,
          h2 := (hp.h2 + ((List.range 80).foldl
            (fun r i => round512 (k512.getD i 0) ((sched512 chunk).getD i 0) r)
            { a := hp.h0, b := hp.h1, c := hp.h2, d := hp.h3,
              e := hp.h4, f := hp.h5, g := hp.h6, h := hp.h7 }).c) % 2 ^ 64,
          h3 := (hp.h3 + ((List.range 80).foldl
            (fun r i => round512 (k512.getD i 0) ((sched512 chunk).getD i 0) r)
            { a := hp.h0, b := hp.h1, c := hp.h2, d := hp.h3,
              e := hp.h4, f := hp.h5, g := hp.h6, h := hp.h7 }).d) % 2 ^ 64,
          h4 := (hp.h4 + ((List.range 80).foldl
            (fun r i => round512 (k512.getD i 0) ((sched512 chunk).getD i 0) r)
            { a := hp.h0, b := hp.h1, c := hp.h2, d := hp.h3,
              e := hp.h4, f := hp.h5, g := hp.h6, h := hp.h7 }).e) % 2 ^ 64,
          h5 := (hp.h5 + ((List.range 80).foldl
            (fun r i => round512 (k512.getD i 0) ((sched512 chunk).getD i 0) r)
            { a := hp.h0, b := hp.h1, c := hp.h2, d := hp.h3,
              e := hp.h4, f := hp.h5, g := hp.h6, h := hp.h7 }).f) % 2 ^ 64,
          h6 := (hp.h6 + ((List.range 80).foldl
            (fun r i => round512 (k512.getD i 0) ((sched512 chunk).getD i 0) r)
            { a := hp.h0, b := hp.h1, c := hp.h2, d := hp.h3,
              e := hp.h4, f := hp.h5, g := hp.h6, h := hp.h7 }).g) % 2 ^ 64,
          h7 := (hp.h7 + ((List.range 80).foldl
            (fun r i => round512 (k512.getD i 0) ((sched512 chunk).getD i 0) r)
            { a := hp.h0, b := hp.h1, c := hp.h2, d := hp.h3,
              e := hp.h4, f := hp.h5, g := hp.h6, h := hp.h7 }).h) % 2 ^ 64 }) :=
  ⟨fun _ _ _ => rfl, fun _ _ _ => rfl, fun _ _ => rfl, fun _ _ => rfl⟩

set_option maxRecDepth 10000 in
/-- C6: for every block, the first 16 schedule words are the block's
bytes read as big-endian native words, and each word from index 16 on
satisfies `w[i] = (w[i-16] + σ0(w[i-15]) + w[i-7] + σ1(w[i-2])) mod
2^wordsize` with the variant-specific rotate/shift mixers (so word 16
depends only on words 0, 1, 9 and 14); for an all-zero block the first
16 words and word 16 are all zero. -/
theorem schedule_seed_and_recurrence :
    (∀ chunk : List Nat, ∀ i : Nat, i < 16 →
      (sched224 chunk).getD i 0 = fromBytesBE ((chunk.drop (4 * i)).take 4))
    ∧ (∀ chunk : List Nat, ∀ i : Nat, 16 ≤ i → i < 64 →
      (sched224 chunk).getD i 0
        = ((sched224 chunk).getD (i - 16) 0
            + (rightrotate ((sched224 chunk).getD (i - 15) 0) 7
                ^^^ rightrotate ((sched224 chunk).getD (i - 15) 0) 18
                ^^^ rightshift ((sched224 chunk).getD (i - 15) 0) 3) % 2 ^ 32
            + (sched224 chunk).getD (i - 7) 0
            + (rightrotate ((sched224 chunk).getD (i - 2) 0) 17
                ^^^ rightrotate ((sched224 chunk).getD (i - 2) 0) 19
                ^^^ rightshift ((sched224 chunk).getD (i - 2) 0) 10) % 2 ^ 32) % 2 ^ 32)
    ∧ (∀ chunk : List Nat, ∀ i : Nat, i < 16 →
      (sched512 chunk).getD i 0 = fromBytesBE ((chunk.drop (8 * i)).take 8))
    ∧ (∀ chunk : List Nat, ∀ i : Nat, 16 ≤ i → i < 80 →
      (sched512 chunk).getD i 0
        = ((sched512 chunk).getD (i - 16) 0
            + (rightrotate_64 ((sched512 chunk).getD (i - 15) 0) 1
                ^^^ rightrotate_64 ((sched512 chunk).getD (i - 15) 0) 8
                ^^^ rightshift ((sched512 chunk).getD (i - 15) 0) 7) % 2 ^ 64
            + (sched512 chunk).getD (i - 7) 0
            + (rightrotate_64 ((sched512 chunk).getD (i - 2) 0) 19
                ^^^ rightrotate_64 ((sched512 chunk).getD (i - 2) 0) 61
                ^^^ rightshift ((sched512 chunk).getD (i - 2) 0) 6) % 2 ^ 64) % 2 ^ 64)
    ∧ (∀ i : Nat, i < 16 → (sched224 (List.replicate 64 0)).getD i 0 = 0)
    ∧ (sched224 (List.replicate 64 0)).getD 16 0 = 0
    ∧ (∀ i : Nat, i < 16 → (sched512 (List.replicate 128 0)).getD i 0 = 0)
    ∧ (sched512 (List.replicate 128 0)).getD 16 0 = 0 := by
  refine ⟨sched224_seed, sched224_recurrence, sched512_seed, sched512_recurrence,
    ?_, ?_, ?_, ?_⟩ <;> decide

set_option maxRecDepth 10000 in
/-- Witness for `schedule_seed_and_recurrence`: concrete instances of
the seed equation at index 3 and of the recurrence at index 16, on the
all-zero SHA224 block. -/
theorem schedule_seed_and_recurrence_witness :
    (sched224 (List.replicate 64 0)).getD 3 0
      = fromBytesBE (((List.replicate 64 (0 : Nat)).drop (4 * 3)).take 4)
    ∧ (sched224 (List.replicate 64 0)).getD 16 0
      = ((sched224 (List.replicate 64 0)).getD (16 - 16) 0
          + (rightrotate ((sched224 (List.replicate 64 0)).getD (16 - 15) 0) 7
              ^^^ rightrotate ((sched224 (List.replicate 64 0)).getD (16 - 15) 0) 18
              ^^^ rightshift ((sched224 (List.replicate 64 0)).getD (16 - 15) 0) 3) % 2 ^ 32
          + (sched224 (List.replicate 64 0)).getD (16 - 7) 0
          + (rightrotate ((sched224 (List.replicate 64 0)).getD (16 - 2) 0) 17
              ^^^ rightrotate ((sched224 (List.replicate 64 0)).getD (16 - 2) 0) 19
              ^^^ rightshift ((sched224 (List.replicate 64 0)).getD (16 - 2) 0) 10) % 2 ^ 32) % 2 ^ 32 :=
  ⟨(schedule_seed_and_recurrence).1 (List.replicate 64 0) 3 (by decide),
   (schedule_seed_and_recurrence).2.1 (List.replicate 64 0) 16 (by decide) (by decide)⟩

/-- C9: for every input, the hex rendering has length exactly twice the
digest byte length (56 characters for SHA224, 128 for SHA512, leading
zeros included), contains only lowercase hexadecimal digit characters,
and renders each digest byte most-significant nibble first. -/
theorem hexdigest_formatting : ∀ m : List Nat,
    (hexdigest224 m).length = 56
    ∧ (hexdigest512 m).length = 128
    ∧ (∀ c ∈ hexdigest224 m,
        (48 ≤ c.toNat ∧ c.toNat ≤ 57) ∨ (97 ≤ c.toNat ∧ c.toNat ≤ 102))
    ∧ (∀ c ∈ hexdigest512 m,
        (48 ≤ c.toNat ∧ c.toNat ≤ 57) ∨ (97 ≤ c.toNat ∧ c.toNat ≤ 102))
    ∧ hexdigest224 m
        = ((digestBytes224 (sha224pieces m)).map
            (fun b => [hexDigitChar (b / 16), hexDigitChar (b % 16)])).flatten
    ∧ hexdigest512 m
        = ((digestBytes512 (sha512pieces m)).map
            (fun b => [hexDigitChar (b / 16), hexDigitChar (b % 16)])).flatten := by
  intro m
  refine ⟨hexFixed_length _ _, hexFixed_length _ _, ?_, ?_, ?_, ?_⟩
  · intro c hc
    obtain ⟨d, hd, rfl⟩ := hexFixed_mem _ _ c hc
    exact hexDigitChar_classes d hd
  · intro c hc
    obtain ⟨d, hd, rfl⟩ := hexFixed_mem _ _ c hc
    exact hexDigitChar_classes d hd
  · exact hexFixed_pairs 28 (sha224int m)
  · exact hexFixed_pairs 64 (sha512int m)

set_option maxRecDepth 10000 in
/-- Witness for `hexdigest_formatting`: the first character of the
SHA224 hex digest of the empty input is a lowercase hex digit. -/
theorem hexdigest_formatting_witness :
    (48 ≤ ('d' : Char).toNat ∧ ('d' : Char).toNat ≤ 57)
    ∨ (97 ≤ ('d' : Char).toNat ∧ ('d' : Char).toNat ≤ 102) :=
  (hexdigest_formatting []).2.2.1 'd' (by decide)

set_option maxRecDepth 10000 in
/-- C10: `update` chains from the object's current `hash_pieces` rather
than resetting to the initialization vector, and sequential updates do
not implement incremental hashing: updating with `m1` then `m2` hashes
the padded `m1` followed by the padded `m2`, so already for
`m1 = m2 = []` the two-update digest differs from the digest of the
concatenation, in both variants. -/
theorem update_chains_not_incremental :
    (∀ hp : Pieces, ∀ m : List Nat,
      update224 hp m = (chunkList 64 (pad224 m)).foldl compress224 hp
      ∧ update512 hp m = (chunkList 128 (pad512 m)).foldl compress512 hp)
    ∧ (∃ m1 m2 : List Nat,
        digest224 (update224 (update224 init224 m1) m2)
          ≠ digest224 (update224 init224 (m1 ++ m2))
        ∧ digest512 (update512 (update512 init512 m1) m2)
          ≠ digest512 (update512 init512 (m1 ++ m2))) := by
  refine ⟨fun hp m => ⟨rfl, rfl⟩, ⟨[], [], ?_, ?_⟩⟩ <;> decide
